import Mathlib

/-!
Verification of the voteGame core: the eligibility filter (`getActiveVotes`)
and the stats calculator (`computeGameStats`) from src/server.js, and the
single-running-best variant of the winner computation from src/index.js.

Numeric semantics: vote values are integers; averages, targets and distances
are modelled as exact rationals (the spec allows "a floating-point (or
equivalently precise rational) representation").
-/

namespace VoteGame

/-- A vote row as read by the core: `SELECT v.id, v.value ... v.created_at`.
Timestamps are modelled as integers. -/
structure Vote where
  id : Int
  value : Int
  created_at : Int
deriving Repr, DecidableEq

/-- Constraint kind: the `type` column, `include` or `exclude`. -/
inductive CKind where
  | inc
  | exc
deriving Repr, DecidableEq

/-- A row of `vote_constraints`. -/
structure TimeConstraint where
  id : Int
  start_time : Int
  end_time : Int
  kind : CKind
  enabled : Bool
deriving Repr, DecidableEq

/-- SQL `t BETWEEN s AND e`: inclusive on both ends. -/
def inRangeB (s e t : Int) : Bool :=
  decide (s ≤ t) && decide (t ≤ e)

/-- The `includes` CTE: enabled constraints of kind Include. -/
def enabledIncludes (cs : List TimeConstraint) : List TimeConstraint :=
  cs.filter (fun c => c.enabled && c.kind == CKind.inc)

/-- The `excludes` CTE: enabled constraints of kind Exclude. -/
def enabledExcludes (cs : List TimeConstraint) : List TimeConstraint :=
  cs.filter (fun c => c.enabled && c.kind == CKind.exc)

/-- The WHERE predicate of the `getActiveVotes` query:
`(NOT EXISTS includes OR EXISTS (includes i WHERE created_at BETWEEN ...))
AND NOT EXISTS (excludes e WHERE created_at BETWEEN ...)`. -/
def voteActive (cs : List TimeConstraint) (v : Vote) : Bool :=
  let incs := enabledIncludes cs
  let excs := enabledExcludes cs
  (incs.isEmpty || incs.any (fun c => inRangeB c.start_time c.end_time v.created_at))
    && !(excs.any (fun c => inRangeB c.start_time c.end_time v.created_at))

/-- Embedding of `getActiveVotes` from src/server.js: the votes kept by the SQL query,
modelled as a filter over the vote rows. -/
def getActiveVotes (votes : List Vote) (cs : List TimeConstraint) : List Vote :=
  votes.filter (voteActive cs)

/-- The result shape of `computeGameStats`. -/
structure GameStats where
  average : Option ℚ
  target : Option ℚ
  isWinner : Bool
  totalVotes : Nat
deriving Repr, DecidableEq

/-- One element of the `distances` array built in `computeGameStats`:
`{ id: row.id, value: row.value, dist }`. -/
structure DistRow where
  id : Int
  value : Int
  dist : ℚ
deriving Repr, DecidableEq

/-- Sum of the vote values: `values.reduce((a, b) => a + b, 0)`. -/
def sumValues (rows : List Vote) : Int :=
  (rows.map (fun r => r.value)).foldl (· + ·) 0

/-- Average: `average = sum / totalVotes`. -/
def averageOf (rows : List Vote) : ℚ :=
  (sumValues rows : ℚ) / (rows.length : ℚ)

/-- Target: `target = average / 2`. -/
def targetOf (rows : List Vote) : ℚ :=
  averageOf rows / 2

/-- Distance of a vote to the target: `Math.abs(row.value - target)`. -/
def distOf (rows : List Vote) (v : Vote) : ℚ :=
  |(v.value : ℚ) - targetOf rows|

/-- The `distances` array: `rows.map((row) => ({id, value, dist}))`. -/
def distancesOf (rows : List Vote) : List DistRow :=
  rows.map (fun r => ⟨r.id, r.value, distOf rows r⟩)

/-- One step of the running minimum: `if (dist < minDist) minDist = dist`,
with `none` standing for the initial `Infinity` (every distance is below it). -/
def minDistStep (m : Option ℚ) (d : ℚ) : Option ℚ :=
  match m with
  | none => some d
  | some x => if d < x then some d else some x

/-- The running `minDist` after the map over `rows`, starting from `Infinity`. -/
def minDistOf (rows : List Vote) : Option ℚ :=
  ((distancesOf rows).map (fun d => d.dist)).foldl minDistStep none

/-- Winner ids: `distances.filter((d) => d.dist === minDist).map((d) => d.id)`. -/
def winnersOf (rows : List Vote) : List Int :=
  ((distancesOf rows).filter (fun d => decide (some d.dist = minDistOf rows))).map
    (fun d => d.id)

/-- Embedding of `computeGameStats` from src/server.js, with the rows returned by
`getActiveVotes` passed in as an argument. -/
def computeGameStats (rows : List Vote) (newVoteId : Int) : GameStats :=
  if rows.isEmpty then
    { average := none, target := none, isWinner := false, totalVotes := 0 }
  else
    { average := some (averageOf rows)
      target := some (targetOf rows)
      isWinner := (winnersOf rows).contains newVoteId
      totalVotes := rows.length }

/-- An in-memory submission of src/index.js: `{ value, timestamp }`. -/
structure Submission where
  value : Int
  timestamp : Int
deriving Repr, DecidableEq

/-- Average of src/index.js: `submissions.reduce(...) / (n || 1)`. -/
def subsAverage (subs : List Submission) : ℚ :=
  ((subs.map (fun s => s.value)).foldl (· + ·) 0 : ℚ) /
    ((if subs.length = 0 then 1 else subs.length : Nat) : ℚ)

/-- One step of the `bestIndex` loop: `if (diff < bestDiff) { bestDiff = diff;
bestIndex = i; }`, over pairs `(index, diff)`. -/
def bestStep (acc : Nat × ℚ) (p : Nat × ℚ) : Nat × ℚ :=
  if p.2 < acc.2 then p else acc

/-- The `bestIndex` loop of the POST /api/submit handler in src/index.js:
starts at index 0 and keeps the first strictly smaller difference. -/
def bestIndexOf (subs : List Submission) (t : ℚ) : Nat :=
  match subs.map (fun s => |(s.value : ℚ) - t|) with
  | [] => 0
  | d0 :: rest => ((rest.enumFrom 1).foldl bestStep (0, d0)).1

/-- Winner flag of src/index.js, `isCurrentWinner = winningSubmission === submission`: the
just-pushed submission is the last element, and the reference equality holds
exactly when `bestIndex` points at it. -/
def submitIsCurrentWinner (subs : List Submission) : Bool :=
  decide (bestIndexOf subs (subsAverage subs / 2) = subs.length - 1)

/-! ### Helper lemmas about the running minimum and the winner set -/

theorem minDistStep_some (m d : ℚ) : minDistStep (some m) d = some (min m d) := by
  rcases lt_or_le d m with h | h
  · simp [minDistStep, if_pos h, min_eq_right h.le]
  · simp [minDistStep, if_neg (not_lt.mpr h), min_eq_left h]

theorem foldl_minDistStep_some (l : List ℚ) (m : ℚ) :
    l.foldl minDistStep (some m) = some (l.foldl min m) := by
  induction l generalizing m with
  | nil => rfl
  | cons d l ih => rw [List.foldl_cons, minDistStep_some, ih, List.foldl_cons]

theorem foldl_min_le_init (l : List ℚ) (a : ℚ) : l.foldl min a ≤ a := by
  induction l generalizing a with
  | nil => exact le_refl a
  | cons b l ih => exact le_trans (ih (min a b)) (min_le_left a b)

theorem foldl_min_le_mem (l : List ℚ) (a : ℚ) : ∀ x ∈ l, l.foldl min a ≤ x := by
  induction l generalizing a with
  | nil => intro x hx; cases hx
  | cons b l ih =>
    intro x hx
    rcases List.mem_cons.mp hx with rfl | hx
    · exact le_trans (foldl_min_le_init l (min a x)) (min_le_right a x)
    · exact ih (min a b) x hx

theorem foldl_min_eq_init_or_mem (l : List ℚ) (a : ℚ) :
    l.foldl min a = a ∨ l.foldl min a ∈ l := by
  induction l generalizing a with
  | nil => exact Or.inl rfl
  | cons b l ih =>
    rw [List.foldl_cons]
    rcases ih (min a b) with h | h
    · rcases min_choice a b with hm | hm
      · exact Or.inl (h.trans hm)
      · exact Or.inr (List.mem_cons.mpr (Or.inl (h.trans hm)))
    · exact Or.inr (List.mem_cons.mpr (Or.inr h))

theorem distancesOf_map_dist (rows : List Vote) :
    (distancesOf rows).map (fun d => d.dist) = rows.map (distOf rows) := by
  simp [distancesOf, List.map_map]

theorem minDistOf_cons (r : Vote) (rs : List Vote) :
    minDistOf (r :: rs) =
      some ((rs.map (distOf (r :: rs))).foldl min (distOf (r :: rs) r)) := by
  rw [minDistOf, distancesOf_map_dist, List.map_cons, List.foldl_cons]
  exact foldl_minDistStep_some _ _

theorem minDistOf_le (rows : List Vote) (m : ℚ) (hm : minDistOf rows = some m) :
    ∀ v ∈ rows, m ≤ distOf rows v := by
  cases rows with
  | nil => intro v hv; cases hv
  | cons r rs =>
    rw [minDistOf_cons] at hm
    have hm' := Option.some_injective _ hm
    intro v hv
    rcases List.mem_cons.mp hv with rfl | hv
    · exact hm' ▸ foldl_min_le_init _ _
    · exact hm' ▸ foldl_min_le_mem _ _ _ (List.mem_map_of_mem _ hv)

theorem minDistOf_attained (rows : List Vote) (m : ℚ) (hm : minDistOf rows = some m) :
    ∃ v ∈ rows, distOf rows v = m := by
  cases rows with
  | nil => simp [minDistOf, distancesOf] at hm
  | cons r rs =>
    rw [minDistOf_cons] at hm
    have hm' := Option.some_injective _ hm
    rcases foldl_min_eq_init_or_mem (rs.map (distOf (r :: rs))) (distOf (r :: rs) r)
        with h | h
    · exact ⟨r, List.mem_cons_self r rs, by rw [← hm', h]⟩
    · rcases List.mem_map.mp h with ⟨v, hv, hveq⟩
      exact ⟨v, List.mem_cons_of_mem r hv, by rw [hveq, ← hm']⟩

theorem minDistOf_isSome (rows : List Vote) (h : rows ≠ []) :
    ∃ m, minDistOf rows = some m := by
  cases rows with
  | nil => exact absurd rfl h
  | cons r rs => exact ⟨_, minDistOf_cons r rs⟩

theorem mem_winnersOf (rows : List Vote) (i : Int) :
    i ∈ winnersOf rows ↔
      ∃ w ∈ rows, w.id = i ∧ some (distOf rows w) = minDistOf rows := by
  simp only [winnersOf, List.mem_map, List.mem_filter, distancesOf,
    decide_eq_true_eq]
  constructor
  · rintro ⟨d, ⟨⟨w, hw, rfl⟩, hmin⟩, hid⟩
    exact ⟨w, hw, hid, hmin⟩
  · rintro ⟨w, hw, hid, hmin⟩
    exact ⟨⟨w.id, w.value, distOf rows w⟩, ⟨⟨w, hw, rfl⟩, hmin⟩, hid⟩

/-! ### Claim theorems -/

/-- C4: for every targetVoteId, `computeGameStats` on an empty eligible-vote
list returns exactly the sentinel
`{average: null, target: null, isWinner: false, totalVotes: 0}`, with no
error (the function is total). -/
theorem computeGameStats_empty_sentinel (tid : Int) :
    computeGameStats [] tid =
      { average := none, target := none, isWinner := false, totalVotes := 0 } :=
  rfl

/-- C3: on a non-empty eligible-vote list, the computed average is the sum of
the vote values divided by their count, and the target is exactly half of
that average. -/
theorem computeGameStats_average_target (rows : List Vote) (tid : Int)
    (h : rows ≠ []) :
    (computeGameStats rows tid).average =
      some (((rows.map (fun r => r.value)).sum : ℚ) / (rows.length : ℚ)) ∧
    (computeGameStats rows tid).target =
      some ((((rows.map (fun r => r.value)).sum : ℚ) / (rows.length : ℚ)) / 2) := by
  have hsum : sumValues rows = (rows.map (fun r => r.value)).sum :=
    List.sum_eq_foldl.symm
  simp [computeGameStats, List.isEmpty_iff, h, averageOf, targetOf, hsum,
    Function.comp_def]

/-- Witness for C3 at the spec scenario votes `[{id:1, value:300}, {id:2,
value:600}]`: average 450, target 225. -/
theorem computeGameStats_average_target_witness :
    ([⟨1, 300, 0⟩, ⟨2, 600, 0⟩] : List Vote) ≠ [] ∧
    ((computeGameStats [⟨1, 300, 0⟩, ⟨2, 600, 0⟩] 1).average =
      some (((([⟨1, 300, 0⟩, ⟨2, 600, 0⟩] : List Vote).map
        (fun r => r.value)).sum : ℚ) /
          (([⟨1, 300, 0⟩, ⟨2, 600, 0⟩] : List Vote).length : ℚ)) ∧
    (computeGameStats [⟨1, 300, 0⟩, ⟨2, 600, 0⟩] 1).target =
      some (((((⟨1, 300, 0⟩ :: [⟨2, 600, 0⟩] : List Vote).map
        (fun r => r.value)).sum : ℚ) /
          (([⟨1, 300, 0⟩, ⟨2, 600, 0⟩] : List Vote).length : ℚ)) / 2)) :=
  ⟨by decide, computeGameStats_average_target [⟨1, 300, 0⟩, ⟨2, 600, 0⟩] 1
    (by decide)⟩

/-- C5: a vote whose creation timestamp lies inside at least one enabled
Exclude range is never in the output of the eligibility filter, no matter
which Include ranges also cover it. -/
theorem exclude_wins (votes : List Vote) (cs : List TimeConstraint) (v : Vote)
    (c : TimeConstraint) (hc : c ∈ cs) (he : c.enabled = true)
    (hk : c.kind = CKind.exc) (h1 : c.start_time ≤ v.created_at)
    (h2 : v.created_at ≤ c.end_time) :
    v ∉ getActiveVotes votes cs := by
  intro hmem
  have hact : voteActive cs v = true := (List.mem_filter.mp hmem).2
  have hcexc : c ∈ enabledExcludes cs := by
    simp [enabledExcludes, List.mem_filter, hc, he, hk]
  have hrange : inRangeB c.start_time c.end_time v.created_at = true := by
    simp [inRangeB, h1, h2]
  have hany : (enabledExcludes cs).any
      (fun c => inRangeB c.start_time c.end_time v.created_at) = true :=
    List.any_eq_true.mpr ⟨c, hcexc, hrange⟩
  rw [voteActive] at hact
  simp only [hany, Bool.not_true, Bool.and_false] at hact
  cases hact

/-- Witness for C5: a vote at timestamp 5 with an enabled Exclude range
[0, 10] and an enabled Include range [0, 10] covering it is not eligible. -/
theorem exclude_wins_witness :
    (⟨2, 0, 10, CKind.exc, true⟩ : TimeConstraint) ∈
      ([⟨1, 0, 10, CKind.inc, true⟩, ⟨2, 0, 10, CKind.exc, true⟩] :
        List TimeConstraint) ∧
    (⟨7, 42, 5⟩ : Vote) ∉ getActiveVotes [⟨7, 42, 5⟩]
      [⟨1, 0, 10, CKind.inc, true⟩, ⟨2, 0, 10, CKind.exc, true⟩] :=
  ⟨by decide, exclude_wins [⟨7, 42, 5⟩] _ ⟨7, 42, 5⟩ ⟨2, 0, 10, CKind.exc, true⟩
    (by decide) (by decide) (by decide) (by decide) (by decide)⟩

/-- C8: the eligibility predicate reads only the creation timestamp of a vote,
so two votes with equal timestamps are classified identically whatever their
values or identifiers. -/
theorem voteActive_depends_only_on_timestamp (cs : List TimeConstraint)
    (v1 v2 : Vote) (h : v1.created_at = v2.created_at) :
    voteActive cs v1 = voteActive cs v2 := by
  unfold voteActive
  rw [h]

/-- Witness for C8: two votes with different ids and values but the same
timestamp get the same classification. -/
theorem voteActive_depends_only_on_timestamp_witness :
    (⟨1, 0, 5⟩ : Vote).created_at = (⟨2, 1000, 5⟩ : Vote).created_at ∧
    voteActive [⟨1, 0, 10, CKind.inc, true⟩] ⟨1, 0, 5⟩ =
      voteActive [⟨1, 0, 10, CKind.inc, true⟩] ⟨2, 1000, 5⟩ :=
  ⟨by decide, voteActive_depends_only_on_timestamp
    [⟨1, 0, 10, CKind.inc, true⟩] ⟨1, 0, 5⟩ ⟨2, 1000, 5⟩ (by decide)⟩

/-- C9: the eligibility filter is a pure function whose output is a
subsequence of the input (relative order preserved), and an empty vote list
yields an empty output. -/
theorem getActiveVotes_sublist (votes : List Vote) (cs : List TimeConstraint) :
    List.Sublist (getActiveVotes votes cs) votes ∧
      getActiveVotes [] cs = [] :=
  ⟨List.filter_sublist votes, rfl⟩

/-- C10: result-shape coherence of `computeGameStats`: average is null iff
target is null iff totalVotes = 0 iff the input is empty, and totalVotes = 0
forces isWinner = false. -/
theorem computeGameStats_shape_coherence (rows : List Vote) (tid : Int) :
    ((computeGameStats rows tid).average = none ↔
      (computeGameStats rows tid).target = none) ∧
    ((computeGameStats rows tid).average = none ↔
      (computeGameStats rows tid).totalVotes = 0) ∧
    ((computeGameStats rows tid).totalVotes = 0 ↔ rows = []) ∧
    ((computeGameStats rows tid).totalVotes = 0 →
      (computeGameStats rows tid).isWinner = false) := by
  cases rows with
  | nil => simp [computeGameStats]
  | cons r rs => simp [computeGameStats]

/-- Witness for C10 at the empty list, discharging the implication. -/
theorem computeGameStats_shape_coherence_witness :
    (computeGameStats [] 3).totalVotes = 0 ∧
      (computeGameStats [] 3).isWinner = false :=
  ⟨rfl, (computeGameStats_shape_coherence [] 3).2.2.2 rfl⟩

/-- C1: on a non-empty eligible-vote list the winner set is exactly the ids
of the votes whose distance to the target equals the minimum distance over
the whole list; it is non-empty, and tied minimum-distance votes are all
members. -/
theorem winners_exact (rows : List Vote) (h : rows ≠ []) :
    ∃ m : ℚ, minDistOf rows = some m ∧
      (∀ v ∈ rows, m ≤ distOf rows v) ∧
      (∃ v ∈ rows, distOf rows v = m) ∧
      winnersOf rows ≠ [] ∧
      (∀ v ∈ rows, (v.id ∈ winnersOf rows ↔
        ∃ w ∈ rows, w.id = v.id ∧ distOf rows w = m)) := by
  obtain ⟨m, hm⟩ := minDistOf_isSome rows h
  refine ⟨m, hm, minDistOf_le rows m hm, minDistOf_attained rows m hm, ?_, ?_⟩
  · obtain ⟨v, hv, hd⟩ := minDistOf_attained rows m hm
    intro hnil
    have hvmem : v.id ∈ winnersOf rows :=
      (mem_winnersOf rows v.id).mpr ⟨v, hv, rfl, by rw [hd, hm]⟩
    rw [hnil] at hvmem
    cases hvmem
  · intro v _
    rw [mem_winnersOf]
    constructor
    · rintro ⟨w, hw, hid, hmin⟩
      rw [hm] at hmin
      exact ⟨w, hw, hid, Option.some_injective _ hmin⟩
    · rintro ⟨w, hw, hid, hd⟩
      exact ⟨w, hw, hid, by rw [hd, hm]⟩

/-- Witness for C1 at the spec scenario `votes = [{id:1, value:0}]`. -/
theorem winners_exact_witness :
    ([⟨1, 0, 0⟩] : List Vote) ≠ [] ∧
    (∃ m : ℚ, minDistOf [⟨1, 0, 0⟩] = some m ∧
      (∀ v ∈ ([⟨1, 0, 0⟩] : List Vote), m ≤ distOf [⟨1, 0, 0⟩] v) ∧
      (∃ v ∈ ([⟨1, 0, 0⟩] : List Vote), distOf [⟨1, 0, 0⟩] v = m) ∧
      winnersOf [⟨1, 0, 0⟩] ≠ [] ∧
      (∀ v ∈ ([⟨1, 0, 0⟩] : List Vote), (v.id ∈ winnersOf [⟨1, 0, 0⟩] ↔
        ∃ w ∈ ([⟨1, 0, 0⟩] : List Vote), w.id = v.id ∧
          distOf [⟨1, 0, 0⟩] w = m))) :=
  ⟨by decide, winners_exact [⟨1, 0, 0⟩] (by decide)⟩

/-- C6: isWinner holds exactly when the target vote id is a member of the
winner set, and an id absent from the eligible votes is never a winner. -/
theorem isWinner_iff_mem_winners (rows : List Vote) (tid : Int) :
    ((computeGameStats rows tid).isWinner = true ↔ tid ∈ winnersOf rows) ∧
    (tid ∉ rows.map (fun v => v.id) →
      (computeGameStats rows tid).isWinner = false) := by
  have hmain : (computeGameStats rows tid).isWinner = true ↔
      tid ∈ winnersOf rows := by
    cases rows with
    | nil => simp [computeGameStats, winnersOf, distancesOf]
    | cons r rs =>
      simp only [computeGameStats, List.isEmpty_cons, Bool.false_eq_true,
        if_false]
      exact List.elem_iff
  refine ⟨hmain, fun hnot => ?_⟩
  cases hb : (computeGameStats rows tid).isWinner with
  | false => rfl
  | true =>
    obtain ⟨w, hw, hid, _⟩ := (mem_winnersOf rows tid).mp (hmain.mp hb)
    exact absurd (List.mem_map.mpr ⟨w, hw, hid⟩) hnot

/-- Witness for C6: id 2 does not occur among the eligible votes, so it is
not a winner. -/
theorem isWinner_iff_mem_winners_witness :
    (2 : Int) ∉ ([⟨1, 5, 0⟩] : List Vote).map (fun v => v.id) ∧
    (computeGameStats [⟨1, 5, 0⟩] 2).isWinner = false :=
  ⟨by decide, (isWinner_iff_mem_winners [⟨1, 5, 0⟩] 2).2 (by decide)⟩

/-- Transcription of the eligibility sentence of the spec: a vote is eligible iff
(a) there are no enabled Include constraints, or its timestamp lies in some
enabled Include range (both endpoints inclusive), and (b) its timestamp lies
in no enabled Exclude range (both endpoints inclusive). -/
def specEligible (cs : List TimeConstraint) (v : Vote) : Prop :=
  ((¬ ∃ c ∈ cs, c.enabled = true ∧ c.kind = CKind.inc) ∨
    (∃ c ∈ cs, c.enabled = true ∧ c.kind = CKind.inc ∧
      c.start_time ≤ v.created_at ∧ v.created_at ≤ c.end_time)) ∧
  ¬ ∃ c ∈ cs, c.enabled = true ∧ c.kind = CKind.exc ∧
      c.start_time ≤ v.created_at ∧ v.created_at ≤ c.end_time

theorem voteActive_iff_specEligible (cs : List TimeConstraint) (v : Vote) :
    voteActive cs v = true ↔ specEligible cs v := by
  simp only [voteActive, specEligible, enabledIncludes, enabledExcludes,
    inRangeB, Bool.and_eq_true, Bool.or_eq_true, Bool.not_eq_true',
    List.any_eq_false, List.any_eq_true, List.isEmpty_iff,
    List.filter_eq_nil_iff, List.mem_filter, Bool.and_eq_false_imp,
    beq_iff_eq, decide_eq_true_eq]
  aesop

/-- C2: a vote is kept by the eligibility filter iff it satisfies the
include/exclude condition of the spec, and a disabled constraint has no effect
on the result. -/
theorem getActiveVotes_spec (votes : List Vote) (cs : List TimeConstraint)
    (v : Vote) :
    (v ∈ getActiveVotes votes cs ↔ v ∈ votes ∧ specEligible cs v) ∧
    (∀ c : TimeConstraint, c.enabled = false →
      getActiveVotes votes (c :: cs) = getActiveVotes votes cs) := by
  constructor
  · rw [getActiveVotes, List.mem_filter, voteActive_iff_specEligible]
  · intro c hc
    have hact : ∀ w : Vote, voteActive (c :: cs) w = voteActive cs w := by
      intro w
      have hi : enabledIncludes (c :: cs) = enabledIncludes cs := by
        simp [enabledIncludes, List.filter_cons, hc]
      have he : enabledExcludes (c :: cs) = enabledExcludes cs := by
        simp [enabledExcludes, List.filter_cons, hc]
      rw [voteActive, voteActive, hi, he]
    exact List.filter_congr (fun w _ => hact w)

/-- Witness for C2: a disabled Include constraint changes nothing, and a
kept vote satisfies the spec condition. -/
theorem getActiveVotes_spec_witness :
    ((⟨9, 0, 100, CKind.inc, false⟩ : TimeConstraint).enabled = false) ∧
    getActiveVotes [⟨1, 5, 3⟩] [⟨9, 0, 100, CKind.inc, false⟩] =
      getActiveVotes [⟨1, 5, 3⟩] [] :=
  ⟨rfl, (getActiveVotes_spec [⟨1, 5, 3⟩] [] ⟨1, 5, 3⟩).2
    ⟨9, 0, 100, CKind.inc, false⟩ rfl⟩

/-- C7: on the tied input (two submissions of value 0) the single-running-
best variant of src/index.js reports the newest submission as not the
current winner even though its distance equals the minimum distance, while
the two-pass winner-set computation of src/server.js reports it as a
winner, so the two computations disagree on tied inputs. -/
theorem bestIndex_drops_tied_winner :
    submitIsCurrentWinner [⟨0, 0⟩, ⟨0, 1⟩] = false ∧
    distOf [⟨1, 0, 0⟩, ⟨2, 0, 1⟩] ⟨2, 0, 1⟩ = 0 ∧
    minDistOf [⟨1, 0, 0⟩, ⟨2, 0, 1⟩] = some 0 ∧
    (computeGameStats [⟨1, 0, 0⟩, ⟨2, 0, 1⟩] 2).isWinner = true := by
  refine ⟨?_, ?_, ?_, ?_⟩
  · norm_num [submitIsCurrentWinner, bestIndexOf, subsAverage, bestStep,
      List.enumFrom]
  · norm_num [distOf, targetOf, averageOf, sumValues]
  · norm_num [minDistOf, distancesOf, distOf, minDistStep, targetOf,
      averageOf, sumValues]
  · norm_num [computeGameStats, winnersOf, distancesOf, distOf, minDistOf,
      minDistStep, targetOf, averageOf, sumValues]

end VoteGame
